import Mathlib

/-!
Verification of the backoff decorators of the go-retry repository
(file backoff.go of package retry).

Embedding conventions:

- Go type time.Duration is int64; it is modelled as Int.  All arithmetic in
  the claims stays far inside the int64 range, so wrap-around is not
  modelled; values are treated as mathematical integers.
- Go errors are modelled by the inductive GoErr.  The constructor nil is
  the nil interface value, base a leaf error with its message, wrap an
  arbitrary wrapper type implementing Unwrap (for example fmt.Errorf with
  the w verb), and retryable the pointer to a retryableError struct holding
  its err field.
- A Backoff is used by the decorators through a single call of its Next
  method; within one such call the inner backoff is just a function from
  the incoming error to a pair of duration and error, so the single-call
  view of the Backoff interface is GoErr -> Int x GoErr.  Stateful
  decorators (WithMaxRetries) get their state passed explicitly.
- math/rand.Int63n n returns a uniform value in the interval [0, n) and
  panics when n <= 0.  The draw is modelled by an oracle integer r reduced
  modulo n (Int.emod lands in [0, n) for positive n), and the panic by the
  value none; decorators that draw therefore return Option.
- The float64 computation of WithJitterPercent is modelled as exact
  arithmetic truncated toward zero (Int.tdiv), matching the conversion of
  a float64 back to time.Duration in Go.
- The sync.Mutex in WithMaxRetries only guards the counter; the claims are
  about the sequential behaviour, so the lock is not modelled.
-/

namespace Retry

/-- Model of the Go error interface value: nil, a leaf error with a message,
an arbitrary wrapping error (anything exposing Unwrap), or a pointer to the
retryableError struct of backoff.go with its err field. -/
inductive GoErr where
  | nil : GoErr
  | base (msg : String) : GoErr
  | wrap (msg : String) (inner : GoErr) : GoErr
  | retryable (inner : GoErr) : GoErr
deriving DecidableEq

/-- Single-call view of the Backoff interface: Next takes the error and
returns the duration to wait and the processed error. -/
abbrev Backoff := GoErr → Int × GoErr

/-- Stop value signals the backoff to stop retrying (backoff.go line 31). -/
def Stop : Int := -1

/-- IsStopped reports whether the backoff shall stop (backoff.go line 34). -/
def IsStopped (delay : Int) : Bool := delay < 0

/-- math/rand.Int63n: uniform in [0, n), panics (none) when n <= 0.  The
outcome of the draw is determined by the oracle r, reduced modulo n. -/
def randInt63n (n r : Int) : Option Int :=
  if n ≤ 0 then none else some (Int.emod r n)

/-- WithJitter (backoff.go lines 42 to 56): one call of the returned
closure.  The randomness oracle r determines the draw of rand.Int63n. -/
def WithJitter (j : Int) (next : Backoff) (r : Int) (err : GoErr) :
    Option (Int × GoErr) :=
  let de := next err
  if IsStopped de.1 then some (Stop, de.2)
  else
    match randInt63n (j * 2) r with
    | none => none
    | some v =>
      let delay := de.1 + (v - j)
      some (if IsStopped delay then 0 else delay, de.2)

/-- WithJitterPercent (backoff.go lines 62 to 79): one call of the returned
closure.  The expression pct = 1 - top / 100 and the multiplication in
float64 are modelled exactly: delay * (100 - top) / 100 truncated toward
zero, which is Int.tdiv on these operands. -/
def WithJitterPercent (j : Nat) (next : Backoff) (r : Int) (err : GoErr) :
    Option (Int × GoErr) :=
  let de := next err
  if IsStopped de.1 then some (Stop, de.2)
  else
    match randInt63n ((j : Int) * 2) r with
    | none => none
    | some v =>
      let top := v - (j : Int)
      let delay := Int.tdiv (de.1 * (100 - top)) 100
      some (if IsStopped delay then 0 else delay, de.2)

/-- WithMaxRetries (backoff.go lines 82 to 97): one call of the returned
closure.  The uint64 counter attempt is the explicit state (it never
reaches max + 1, so modelling it as Nat is exact); next is the behaviour
of the inner backoff on this call.  The pair holds the returned value and
the state of the counter after the call. -/
def WithMaxRetries (max : Nat) (next : Backoff) (attempt : Nat) (err : GoErr) :
    (Int × GoErr) × Nat :=
  if max ≤ attempt then ((Stop, err), attempt)
  else (next err, attempt + 1)

/-- Counter state of a WithMaxRetries instance after n calls, starting from
the zero value of the var attempt.  The inner backoff may be stateful
across the sequence: inner i is its behaviour on its i-th invocation, and
errs n is the error passed to the n-th call of the decorator.  Every
delegation invokes the inner backoff exactly once, so the number of inner
invocations made so far equals the counter. -/
def maxRetriesState (max : Nat) (inner : Nat → Backoff) (errs : Nat → GoErr) :
    Nat → Nat
  | 0 => 0
  | n + 1 =>
    let s := maxRetriesState max inner errs n
    (WithMaxRetries max (inner s) s (errs n)).2

/-- Result and next counter state of the n-th call (0-indexed) to a
WithMaxRetries instance. -/
def maxRetriesCall (max : Nat) (inner : Nat → Backoff) (errs : Nat → GoErr)
    (n : Nat) : (Int × GoErr) × Nat :=
  WithMaxRetries max (inner (maxRetriesState max inner errs n))
    (maxRetriesState max inner errs n) (errs n)

/-- WithCappedDuration (backoff.go lines 103 to 115): one call of the
returned closure. -/
def WithCappedDuration (cap : Int) (next : Backoff) (err : GoErr) :
    Int × GoErr :=
  let de := next err
  if IsStopped de.1 then (Stop, de.2)
  else if de.1 ≤ 0 ∨ cap < de.1 then (cap, de.2)
  else (de.1, de.2)

/-- WithMaxDuration (backoff.go lines 120 to 139): one call of the returned
closure.  The value of time.Since(start) at the moment of the call is the
oracle elapsed. -/
def WithMaxDuration (timeout : Int) (next : Backoff) (elapsed : Int)
    (err : GoErr) : Int × GoErr :=
  let diff := timeout - elapsed
  if diff ≤ 0 then (Stop, err)
  else
    let de := next err
    if IsStopped de.1 then (Stop, de.2)
    else if de.1 ≤ 0 ∨ diff < de.1 then (diff, de.2)
    else (de.1, de.2)

/-- RetryableError (backoff.go lines 146 to 151): marks an error as
retryable; a nil error stays nil. -/
def RetryableError : GoErr → GoErr
  | .nil => .nil
  | e => .retryable e

/-- Unwrap of a retryableError pointer (backoff.go lines 154 to 156):
defined on values of that concrete type only. -/
def retryableUnwrap : GoErr → Option GoErr
  | .retryable e => some e
  | _ => none

/-- Error method (backoff.go lines 159 to 164 for retryableError, and the
message of the other error shapes). -/
def errorString : GoErr → String
  | .nil => "<nil>"
  | .base msg => msg
  | .wrap msg _ => msg
  | .retryable e =>
    if e = .nil then "retryable: <nil>" else "retryable: " ++ errorString e

/-- errors.As with a target of type pointer to retryableError: walks the
unwrap chain of err and, at the first node of that concrete type, yields
the err field of the node (the value rerr.Unwrap() returns); none when the
chain holds no such node (errors.As returns false). -/
def errorsAsRetryable : GoErr → Option GoErr
  | .retryable e => some e
  | .wrap _ inner => errorsAsRetryable inner
  | _ => none

/-- WithRetryable (backoff.go lines 168 to 176): one call of the returned
closure. -/
def WithRetryable (next : Backoff) (err : GoErr) : Int × GoErr :=
  match errorsAsRetryable err with
  | none => (Stop, err)
  | some e => next e

/-- Specification-side vocabulary: err is, or (through the unwrap chain)
wraps, a retryable-marked error whose underlying error is e; the first
retryable node of the chain is the one errors.As finds. -/
inductive WrapsRetryable : GoErr → GoErr → Prop
  | here (e : GoErr) : WrapsRetryable (.retryable e) e
  | there (msg : String) {w e : GoErr} :
      WrapsRetryable w e → WrapsRetryable (.wrap msg w) e

/-- Modelled from the spec: the repository offers jitter decorators with an
explicit boolean mode parameter (the tests call WithJitter with three
arguments), whose source file is not among the provided sources; per the
spec the boolean "may restrict the offset to [0, +spread) (additive-only,
never reduces delay)", while the symmetric mode draws from [-spread,
+spread) and clamps at zero. -/
def WithJitterMode (j : Int) (isAdditive : Bool) (next : Backoff)
    (r : Int) (err : GoErr) : Option (Int × GoErr) :=
  let de := next err
  if IsStopped de.1 then some (Stop, de.2)
  else
    match (if isAdditive then randInt63n j r
           else (randInt63n (j * 2) r).map (fun v => v - j)) with
    | none => none
    | some diff =>
      let delay := de.1 + diff
      some (if IsStopped delay then 0 else delay, de.2)

/-- Modelled from the spec: the percent variant of the three-argument
jitter decorator, not among the provided sources; the offset "is expressed
as percent of the computed delay (or 0 to +percent in additive-only mode)
... applied as a multiplicative perturbation", modelled exactly like
WithJitterPercent with the drawn percentage added to 100. -/
def WithJitterPercentMode (j : Nat) (isAdditive : Bool) (next : Backoff)
    (r : Int) (err : GoErr) : Option (Int × GoErr) :=
  let de := next err
  if IsStopped de.1 then some (Stop, de.2)
  else
    match (if isAdditive then randInt63n (j : Int) r
           else (randInt63n ((j : Int) * 2) r).map (fun v => v - (j : Int))) with
    | none => none
    | some p =>
      let delay := Int.tdiv (de.1 * (100 + p)) 100
      some (if IsStopped delay then 0 else delay, de.2)

/-- Inner backoff returning a fixed duration with a nil error, used to
instantiate the theorems at concrete inputs. -/
def constBackoff (d : Int) : Backoff := fun _ => (d, GoErr.nil)

/-- Family of inner behaviours all equal to constBackoff d, used to
instantiate the sequence theorems at concrete inputs. -/
def constInner (d : Int) : Nat → Backoff := fun _ => constBackoff d

/-- Family of nil call errors, used to instantiate the sequence theorems at
concrete inputs. -/
def nilErrs : Nat → GoErr := fun _ => GoErr.nil

/-- The stop check of the decorators computes the clamp at zero. -/
theorem ite_stopped (d : Int) :
    (if IsStopped d then (0 : Int) else d) = max 0 d := by
  by_cases h : d < 0
  · simp [IsStopped, h]
    omega
  · simp [IsStopped, h]
    omega

/-- A duration is not stopped exactly when it is non-negative. -/
theorem isStopped_false_iff (d : Int) : IsStopped d = false ↔ 0 ≤ d := by
  simp [IsStopped]

/-- On a positive bound the modelled rand.Int63n draws the oracle modulo
the bound. -/
theorem randInt63n_pos (n r : Int) (h : 0 < n) :
    randInt63n n r = some (Int.emod r n) := by
  rw [randInt63n, if_neg (by omega)]

/-- The counter of WithMaxRetries after n calls is the minimum of n and
max. -/
theorem maxRetriesState_eq (max : Nat) (inner : Nat → Backoff)
    (errs : Nat → GoErr) : ∀ n, maxRetriesState max inner errs n = min n max := by
  intro n
  induction n with
  | zero => simp [maxRetriesState]
  | succ n ih =>
    show (WithMaxRetries max (inner (maxRetriesState max inner errs n))
      (maxRetriesState max inner errs n) (errs n)).2 = min (n + 1) max
    rw [ih]
    unfold WithMaxRetries
    by_cases h : max ≤ min n max
    · rw [if_pos h]
      omega
    · rw [if_neg h]
      show min n max + 1 = min (n + 1) max
      omega

/-- The executable chain walk of errors.As agrees with the WrapsRetryable
relation. -/
theorem errorsAsRetryable_iff : ∀ (err e : GoErr),
    errorsAsRetryable err = some e ↔ WrapsRetryable err e := by
  intro err
  induction err with
  | nil =>
    intro e
    constructor
    · intro h
      simp [errorsAsRetryable] at h
    · intro h
      nomatch h
  | base msg =>
    intro e
    constructor
    · intro h
      simp [errorsAsRetryable] at h
    · intro h
      nomatch h
  | wrap msg inner ih =>
    intro e
    constructor
    · intro h
      exact WrapsRetryable.there msg ((ih e).mp h)
    · intro h
      cases h with
      | there _ hw => exact (ih e).mpr hw
  | retryable e0 =>
    intro e
    constructor
    · intro h
      simp [errorsAsRetryable] at h
      rw [← h]
      exact WrapsRetryable.here e0
    · intro h
      cases h
      rfl

/-- C1: WithMaxRetries keeps an attempt counter starting at 0; each of the
first max calls increments it and delegates to the inner backoff, returning
its duration and error, and every call once the counter has reached max
returns the Stop signal with the passed-in error unchanged, without
invoking the inner backoff (the result is the same for every inner
behaviour f) and without incrementing the counter. -/
theorem WithMaxRetries_spec (max : Nat) (inner : Nat → Backoff)
    (errs : Nat → GoErr) (n : Nat) :
    maxRetriesState max inner errs 0 = 0 ∧
    (n < max →
      maxRetriesState max inner errs n = n ∧
      maxRetriesCall max inner errs n = (inner n (errs n), n + 1)) ∧
    (max ≤ n →
      maxRetriesState max inner errs n = max ∧
      ∀ (f : Backoff) (err : GoErr),
        WithMaxRetries max f max err = ((Stop, err), max)) := by
  refine ⟨rfl, ?_, ?_⟩
  · intro h
    have hs := maxRetriesState_eq max inner errs n
    have hmin : min n max = n := by omega
    rw [hmin] at hs
    refine ⟨hs, ?_⟩
    unfold maxRetriesCall
    rw [hs]
    unfold WithMaxRetries
    rw [if_neg (by omega)]
  · intro h
    have hs := maxRetriesState_eq max inner errs n
    have hmin : min n max = max := by omega
    rw [hmin] at hs
    refine ⟨hs, ?_⟩
    intro f err
    unfold WithMaxRetries
    rw [if_pos (le_refl max)]

/-- Witness for C1 at max 2 with a constant inner backoff: call number 1
still delegates and moves the counter to 2, and after 3 calls the counter
is still 2. -/
theorem WithMaxRetries_spec_witness :
    (maxRetriesState 2 (constInner 7) nilErrs 1 = 1 ∧
      maxRetriesCall 2 (constInner 7) nilErrs 1 = ((7, GoErr.nil), 2)) ∧
    maxRetriesState 2 (constInner 7) nilErrs 3 = 2 :=
  ⟨(WithMaxRetries_spec 2 (constInner 7) nilErrs 1).2.1 (by decide),
   ((WithMaxRetries_spec 2 (constInner 7) nilErrs 3).2.2 (by decide)).1⟩

/-- C2: for every inner backoff and error err, if err neither is nor wraps
a retryable-marked error, WithRetryable returns the Stop signal with the
original error as-is and never invokes the inner backoff (same result for
every inner f); if err is or wraps a retryable-marked error with underlying
error e, the call delegates to the inner backoff with the unwrapped e and
passes its result through. -/
theorem WithRetryable_spec (next : Backoff) (err : GoErr) :
    ((∀ e, ¬ WrapsRetryable err e) →
      ∀ f : Backoff, WithRetryable f err = (Stop, err)) ∧
    (∀ e, WrapsRetryable err e → WithRetryable next err = next e) := by
  constructor
  · intro h f
    unfold WithRetryable
    cases hE : errorsAsRetryable err with
    | none => rfl
    | some e => exact absurd ((errorsAsRetryable_iff err e).mp hE) (h e)
  · intro e he
    have hE := (errorsAsRetryable_iff err e).mpr he
    unfold WithRetryable
    rw [hE]

/-- Witness for C2: a plain error stops with the error as-is, and a wrapped
retryable mark delegates the unwrapped leaf to the inner backoff. -/
theorem WithRetryable_spec_witness :
    WithRetryable (constBackoff 4) (GoErr.base "x") = (Stop, GoErr.base "x") ∧
    WithRetryable (constBackoff 4)
        (GoErr.wrap "ctx" (GoErr.retryable (GoErr.base "y"))) =
      constBackoff 4 (GoErr.base "y") :=
  ⟨(WithRetryable_spec (constBackoff 4) (GoErr.base "x")).1
      (fun _ h => nomatch h) (constBackoff 4),
   (WithRetryable_spec (constBackoff 4)
        (GoErr.wrap "ctx" (GoErr.retryable (GoErr.base "y")))).2 (GoErr.base "y")
      (WrapsRetryable.there "ctx" (WrapsRetryable.here (GoErr.base "y")))⟩

/-- C3: each call of WithMaxDuration computes the remaining budget timeout
minus elapsed; with no budget left it returns the Stop signal with the
input error without consulting the inner backoff (same result for every
inner f); otherwise it delegates, propagates an inner stop as Stop, and
substitutes the remaining budget whenever the inner delay is non-positive
or exceeds it, so the returned delay never exceeds the remaining budget. -/
theorem WithMaxDuration_spec (timeout elapsed : Int) (next : Backoff)
    (err : GoErr) :
    (timeout - elapsed ≤ 0 →
      ∀ f : Backoff, WithMaxDuration timeout f elapsed err = (Stop, err)) ∧
    (0 < timeout - elapsed →
      (IsStopped (next err).1 = true →
        WithMaxDuration timeout next elapsed err = (Stop, (next err).2)) ∧
      (IsStopped (next err).1 = false →
        WithMaxDuration timeout next elapsed err =
          ((if (next err).1 ≤ 0 ∨ timeout - elapsed < (next err).1
              then timeout - elapsed else (next err).1), (next err).2) ∧
        (WithMaxDuration timeout next elapsed err).1 ≤ timeout - elapsed)) := by
  constructor
  · intro h f
    unfold WithMaxDuration
    rw [if_pos h]
  · intro h
    have h1 : ¬ (timeout - elapsed ≤ 0) := by omega
    constructor
    · intro hs
      simp [WithMaxDuration, h1, hs]
    · intro hs
      by_cases h3 : (next err).1 ≤ 0 ∨ timeout - elapsed < (next err).1
      · refine ⟨?_, ?_⟩
        · simp [WithMaxDuration, h1, hs, h3]
        · simp [WithMaxDuration, h1, hs, h3]
      · refine ⟨?_, ?_⟩
        · simp [WithMaxDuration, h1, hs, h3]
        · simp [WithMaxDuration, h1, hs, h3]
          omega

/-- Witness for C3: an exhausted budget stops, and a delay above the
remaining budget of 7 is clamped to 7. -/
theorem WithMaxDuration_spec_witness :
    WithMaxDuration 1 (constBackoff 9) 5 GoErr.nil = (Stop, GoErr.nil) ∧
    (WithMaxDuration 10 (constBackoff 20) 3 GoErr.nil =
        ((if (20 : Int) ≤ 0 ∨ (10 : Int) - 3 < 20 then (10 : Int) - 3 else 20),
          GoErr.nil) ∧
      (WithMaxDuration 10 (constBackoff 20) 3 GoErr.nil).1 ≤ 10 - 3) :=
  ⟨(WithMaxDuration_spec 1 5 (constBackoff 9) GoErr.nil).1 (by decide)
      (constBackoff 9),
   ((WithMaxDuration_spec 10 3 (constBackoff 20) GoErr.nil).2 (by decide)).2
      (by decide)⟩

/-- C4 counterexample: the claim says a non-stop inner delay d with d at
most cap is returned itself, but on the non-stop delay 0 with cap 5 the
code substitutes the cap and returns 5, not 0. -/
theorem WithCappedDuration_counterexample :
    IsStopped ((constBackoff 0) GoErr.nil).1 = false ∧
    ((constBackoff 0) GoErr.nil).1 ≤ 5 ∧
    WithCappedDuration 5 (constBackoff 0) GoErr.nil = (5, GoErr.nil) ∧
    (5 : Int) ≠ ((constBackoff 0) GoErr.nil).1 := by decide

/-- C4 (amended): WithCappedDuration propagates an inner stop as Stop with
the error unchanged; a non-stop inner delay is replaced by cap when it is
non-positive or exceeds cap, and returned itself only when it is positive
and at most cap. -/
theorem WithCappedDuration_amended (cap : Int) (next : Backoff)
    (err : GoErr) :
    (IsStopped (next err).1 = true →
      WithCappedDuration cap next err = (Stop, (next err).2)) ∧
    (IsStopped (next err).1 = false →
      ((next err).1 ≤ 0 ∨ cap < (next err).1) →
      WithCappedDuration cap next err = (cap, (next err).2)) ∧
    (0 < (next err).1 → (next err).1 ≤ cap →
      WithCappedDuration cap next err = ((next err).1, (next err).2)) := by
  refine ⟨?_, ?_, ?_⟩
  · intro hs
    simp [WithCappedDuration, hs]
  · intro hs hc
    simp [WithCappedDuration, hs, hc]
  · intro hp hc
    have hs : IsStopped (next err).1 = false :=
      (isStopped_false_iff _).mpr (le_of_lt hp)
    have hden : ¬ ((next err).1 ≤ 0 ∨ cap < (next err).1) := by omega
    simp [WithCappedDuration, hs, hden]

/-- Witness for C4 (amended): with cap 5 an inner delay 9 is capped to 5
and an inner delay 3 passes through. -/
theorem WithCappedDuration_amended_witness :
    WithCappedDuration 5 (constBackoff 9) GoErr.nil = (5, GoErr.nil) ∧
    WithCappedDuration 5 (constBackoff 3) GoErr.nil = (3, GoErr.nil) :=
  ⟨(WithCappedDuration_amended 5 (constBackoff 9) GoErr.nil).2.1 (by decide)
      (by decide),
   (WithCappedDuration_amended 5 (constBackoff 3) GoErr.nil).2.2 (by decide)
      (by decide)⟩

/-- C5 (spec-modelled): the jitter decorators take an explicit boolean mode
parameter selecting additive-only jitter; with the additive mode selected
and a non-stop inner delay d, the returned delay of WithJitterMode lies in
the interval [d, d + spread), and the returned delay of
WithJitterPercentMode lies between d and d increased by up to percent of d,
for every outcome of the random draw. -/
theorem jitterAdditive_spec (next : Backoff) (r : Int) (err : GoErr)
    (hns : IsStopped (next err).1 = false) :
    (∀ j : Int, 0 < j →
      WithJitterMode j true next r err =
        some ((next err).1 + Int.emod r j, (next err).2) ∧
      (next err).1 ≤ (next err).1 + Int.emod r j ∧
      (next err).1 + Int.emod r j < (next err).1 + j) ∧
    (∀ jp : Nat, 1 ≤ jp →
      WithJitterPercentMode jp true next r err =
        some (Int.tdiv ((next err).1 * (100 + Int.emod r (jp : Int))) 100,
          (next err).2) ∧
      (next err).1 ≤ Int.tdiv ((next err).1 * (100 + Int.emod r (jp : Int))) 100 ∧
      100 * Int.tdiv ((next err).1 * (100 + Int.emod r (jp : Int))) 100 ≤
        (next err).1 * (100 + (jp : Int))) := by
  have hd : 0 ≤ (next err).1 := (isStopped_false_iff _).mp hns
  constructor
  · intro j hj
    have hm0 : 0 ≤ Int.emod r j := Int.emod_nonneg r (by omega)
    have hm1 : Int.emod r j < j := Int.emod_lt_of_pos r hj
    have hni : IsStopped ((next err).1 + Int.emod r j) = false :=
      (isStopped_false_iff _).mpr (by omega)
    refine ⟨?_, by omega, by omega⟩
    simp [WithJitterMode, hns, randInt63n_pos j r hj, hni]
  · intro jp hjp
    have hj0 : 0 < jp := hjp
    have hjz : (0 : Int) < (jp : Int) := by exact_mod_cast hj0
    have hp0 : 0 ≤ Int.emod r (jp : Int) := Int.emod_nonneg r (by omega)
    have hp1 : Int.emod r (jp : Int) < (jp : Int) := Int.emod_lt_of_pos r hjz
    have hx0 : 0 ≤ (next err).1 * (100 + Int.emod r (jp : Int)) :=
      mul_nonneg hd (by omega)
    have htd : Int.tdiv ((next err).1 * (100 + Int.emod r (jp : Int))) 100 =
        (next err).1 * (100 + Int.emod r (jp : Int)) / 100 :=
      Int.tdiv_eq_ediv hx0 (by omega)
    have htd0 : 0 ≤ Int.tdiv ((next err).1 * (100 + Int.emod r (jp : Int))) 100 :=
      Int.tdiv_nonneg hx0 (by omega)
    have hni : IsStopped
        (Int.tdiv ((next err).1 * (100 + Int.emod r (jp : Int))) 100) = false :=
      (isStopped_false_iff _).mpr htd0
    have hlow : (next err).1 ≤
        Int.tdiv ((next err).1 * (100 + Int.emod r (jp : Int))) 100 := by
      rw [htd, Int.le_ediv_iff_mul_le (by omega)]
      exact mul_le_mul_of_nonneg_left (by omega) hd
    have hup : 100 * Int.tdiv ((next err).1 * (100 + Int.emod r (jp : Int))) 100 ≤
        (next err).1 * (100 + (jp : Int)) := by
      rw [htd]
      have hdm := Int.ediv_add_emod ((next err).1 * (100 + Int.emod r (jp : Int))) 100
      have hmn := Int.emod_nonneg ((next err).1 * (100 + Int.emod r (jp : Int)))
        (show (100 : Int) ≠ 0 by omega)
      have hle : (next err).1 * (100 + Int.emod r (jp : Int)) ≤
          (next err).1 * (100 + (jp : Int)) :=
        mul_le_mul_of_nonneg_left (by omega) hd
      omega
    refine ⟨?_, hlow, hup⟩
    simp [WithJitterPercentMode, hns, randInt63n_pos (jp : Int) r hjz, hni]

/-- Witness for C5 at spread 4 and percent 5 on the inner delay 10. -/
theorem jitterAdditive_spec_witness :
    (WithJitterMode 4 true (constBackoff 10) 3 GoErr.nil =
        some (10 + Int.emod 3 4, GoErr.nil) ∧
      (10 : Int) ≤ 10 + Int.emod 3 4 ∧
      10 + Int.emod 3 4 < 10 + 4) ∧
    (WithJitterPercentMode 5 true (constBackoff 10) 3 GoErr.nil =
        some (Int.tdiv (10 * (100 + Int.emod 3 ((5 : Nat) : Int))) 100,
          GoErr.nil) ∧
      (10 : Int) ≤ Int.tdiv (10 * (100 + Int.emod 3 ((5 : Nat) : Int))) 100 ∧
      100 * Int.tdiv (10 * (100 + Int.emod 3 ((5 : Nat) : Int))) 100 ≤
        10 * (100 + ((5 : Nat) : Int))) :=
  ⟨(jitterAdditive_spec (constBackoff 10) 3 GoErr.nil (by decide)).1 4
      (by decide),
   (jitterAdditive_spec (constBackoff 10) 3 GoErr.nil (by decide)).2 5
      (by decide)⟩

/-- C6: WithJitter with a positive spread, on a non-stop inner delay d,
adds an offset drawn from the interval [-spread, +spread) and clamps a
negative sum to zero, so the result lies between max 0 (d - spread)
inclusive and d + spread exclusive and is never negative; an inner stop is
propagated as Stop with the error of the inner call unchanged. -/
theorem WithJitter_spec (j : Int) (next : Backoff) (r : Int) (err : GoErr)
    (hj : 0 < j) :
    (IsStopped (next err).1 = true →
      WithJitter j next r err = some (Stop, (next err).2)) ∧
    (IsStopped (next err).1 = false →
      WithJitter j next r err =
        some (max 0 ((next err).1 + (Int.emod r (j * 2) - j)), (next err).2) ∧
      -j ≤ Int.emod r (j * 2) - j ∧
      Int.emod r (j * 2) - j < j ∧
      max 0 ((next err).1 - j) ≤
        max 0 ((next err).1 + (Int.emod r (j * 2) - j)) ∧
      max 0 ((next err).1 + (Int.emod r (j * 2) - j)) < (next err).1 + j ∧
      0 ≤ max 0 ((next err).1 + (Int.emod r (j * 2) - j))) := by
  constructor
  · intro hs
    simp [WithJitter, hs]
  · intro hns
    have hd : 0 ≤ (next err).1 := (isStopped_false_iff _).mp hns
    have hj2 : (0 : Int) < j * 2 := by omega
    have hv0 : 0 ≤ Int.emod r (j * 2) := Int.emod_nonneg r (by omega)
    have hv1 : Int.emod r (j * 2) < j * 2 := Int.emod_lt_of_pos r hj2
    refine ⟨?_, by omega, by omega, by omega, by omega, by omega⟩
    simp [WithJitter, hns, randInt63n_pos (j * 2) r hj2, ite_stopped]

/-- Witness for C6 at spread 2, inner delay 5, oracle 3. -/
theorem WithJitter_spec_witness :
    WithJitter 2 (constBackoff 5) 3 GoErr.nil =
      some (max 0 (5 + (Int.emod 3 (2 * 2) - 2)), GoErr.nil) ∧
    -(2 : Int) ≤ Int.emod 3 (2 * 2) - 2 ∧
    Int.emod 3 (2 * 2) - 2 < 2 ∧
    max 0 ((5 : Int) - 2) ≤ max 0 (5 + (Int.emod 3 (2 * 2) - 2)) ∧
    max 0 ((5 : Int) + (Int.emod 3 (2 * 2) - 2)) < 5 + 2 ∧
    (0 : Int) ≤ max 0 (5 + (Int.emod 3 (2 * 2) - 2)) :=
  (WithJitter_spec 2 (constBackoff 5) 3 GoErr.nil (by decide)).2 (by decide)

/-- C7 counterexample: at percent 0 the non-stop path panics inside
rand.Int63n (the model returns none instead of a value), so the call does
not return normally; and at percent 5 with inner delay 10 the draw with
top 4 yields 9, a downward deviation of 1 nanosecond that exceeds five
percent of 10. -/
theorem WithJitterPercent_counterexample :
    WithJitterPercent 0 (constBackoff 10) 0 GoErr.nil = none ∧
    WithJitterPercent 5 (constBackoff 10) 9 GoErr.nil = some (9, GoErr.nil) ∧
    100 * ((10 : Int) - 9) > 5 * 10 := by decide

/-- C7 (amended): for every percent between 1 and 100 and every non-stop
inner delay d, WithJitterPercent returns normally with a non-negative
delay that exceeds d by at most percent of d and falls short of d by at
most percent of d plus one nanosecond of truncation slack (all scaled by
100 to stay in integers). -/
theorem WithJitterPercent_amended (jp : Nat) (next : Backoff) (r : Int)
    (err : GoErr) (h1 : 1 ≤ jp) (h2 : jp ≤ 100)
    (hns : IsStopped (next err).1 = false) :
    (WithJitterPercent jp next r err).isSome = true ∧
    ∀ (d : Int) (e : GoErr), WithJitterPercent jp next r err = some (d, e) →
      e = (next err).2 ∧ 0 ≤ d ∧
      100 * (d - (next err).1) ≤ (jp : Int) * (next err).1 ∧
      100 * ((next err).1 - d) ≤ (jp : Int) * (next err).1 + 100 := by
  have hd : 0 ≤ (next err).1 := (isStopped_false_iff _).mp hns
  have hj0 : 0 < jp := h1
  have hjz : (0 : Int) < (jp : Int) := by exact_mod_cast hj0
  have hj100 : (jp : Int) ≤ 100 := by exact_mod_cast h2
  have hj2 : (0 : Int) < (jp : Int) * 2 := by omega
  have hv0 : 0 ≤ Int.emod r ((jp : Int) * 2) := Int.emod_nonneg r (by omega)
  have hv1 : Int.emod r ((jp : Int) * 2) < (jp : Int) * 2 :=
    Int.emod_lt_of_pos r hj2
  have hx0 : 0 ≤ (next err).1 * (100 - (Int.emod r ((jp : Int) * 2) - (jp : Int))) :=
    mul_nonneg hd (by omega)
  have htd : Int.tdiv
      ((next err).1 * (100 - (Int.emod r ((jp : Int) * 2) - (jp : Int)))) 100 =
      (next err).1 * (100 - (Int.emod r ((jp : Int) * 2) - (jp : Int))) / 100 :=
    Int.tdiv_eq_ediv hx0 (by omega)
  have htd0 : 0 ≤ Int.tdiv
      ((next err).1 * (100 - (Int.emod r ((jp : Int) * 2) - (jp : Int)))) 100 :=
    Int.tdiv_nonneg hx0 (by omega)
  have hni : IsStopped (Int.tdiv
      ((next err).1 * (100 - (Int.emod r ((jp : Int) * 2) - (jp : Int)))) 100) =
      false := (isStopped_false_iff _).mpr htd0
  have heq : WithJitterPercent jp next r err =
      some (Int.tdiv
        ((next err).1 * (100 - (Int.emod r ((jp : Int) * 2) - (jp : Int)))) 100,
        (next err).2) := by
    simp [WithJitterPercent, hns, randInt63n_pos ((jp : Int) * 2) r hj2, hni]
  refine ⟨by rw [heq]; rfl, ?_⟩
  intro d e hde
  rw [heq] at hde
  simp only [Option.some.injEq, Prod.mk.injEq] at hde
  obtain ⟨hde1, hde2⟩ := hde
  subst hde1
  subst hde2
  refine ⟨rfl, htd0, ?_, ?_⟩
  · rw [htd]
    have hdm := Int.ediv_add_emod
      ((next err).1 * (100 - (Int.emod r ((jp : Int) * 2) - (jp : Int)))) 100
    have hmn := Int.emod_nonneg
      ((next err).1 * (100 - (Int.emod r ((jp : Int) * 2) - (jp : Int))))
      (show (100 : Int) ≠ 0 by omega)
    have hle : (next err).1 * (100 - (Int.emod r ((jp : Int) * 2) - (jp : Int))) ≤
        (next err).1 * (100 + (jp : Int)) :=
      mul_le_mul_of_nonneg_left (by omega) hd
    have hA : (next err).1 * (100 + (jp : Int)) =
        100 * (next err).1 + (jp : Int) * (next err).1 := by ring
    linarith
  · rw [htd]
    have hdm := Int.ediv_add_emod
      ((next err).1 * (100 - (Int.emod r ((jp : Int) * 2) - (jp : Int)))) 100
    have hml := Int.emod_lt_of_pos
      ((next err).1 * (100 - (Int.emod r ((jp : Int) * 2) - (jp : Int))))
      (show (0 : Int) < 100 by omega)
    have hge : (next err).1 * (101 - (jp : Int)) ≤
        (next err).1 * (100 - (Int.emod r ((jp : Int) * 2) - (jp : Int))) :=
      mul_le_mul_of_nonneg_left (by omega) hd
    have hB : (next err).1 * (101 - (jp : Int)) =
        101 * (next err).1 - (jp : Int) * (next err).1 := by ring
    linarith

/-- Witness for C7 (amended) at percent 5, inner delay 10, oracle 9, where
the returned delay is 9. -/
theorem WithJitterPercent_amended_witness :
    GoErr.nil = GoErr.nil ∧ (0 : Int) ≤ 9 ∧
    100 * ((9 : Int) - 10) ≤ ((5 : Nat) : Int) * 10 ∧
    100 * ((10 : Int) - 9) ≤ ((5 : Nat) : Int) * 10 + 100 :=
  (WithJitterPercent_amended 5 (constBackoff 10) 9 GoErr.nil (by decide)
    (by decide) (by decide)).2 9 GoErr.nil (by decide)

/-- C8: RetryableError maps nil to nil; every non-nil error e is mapped to
a non-nil tagged value whose message is the string retryable-colon-space
followed by the message of e (a tagged value holding a nil inner error
reports the nil placeholder), whose Unwrap returns the original e, and
through which the chain walk of errors.As still finds e. -/
theorem RetryableError_spec (e : GoErr) (h : e ≠ GoErr.nil) :
    RetryableError GoErr.nil = GoErr.nil ∧
    RetryableError e = GoErr.retryable e ∧
    RetryableError e ≠ GoErr.nil ∧
    errorString (RetryableError e) = "retryable: " ++ errorString e ∧
    errorString (GoErr.retryable GoErr.nil) = "retryable: <nil>" ∧
    retryableUnwrap (RetryableError e) = some e ∧
    errorsAsRetryable (RetryableError e) = some e := by
  have he : RetryableError e = GoErr.retryable e := by
    cases e with
    | nil => exact absurd rfl h
    | base msg => rfl
    | wrap msg inner => rfl
    | retryable inner => rfl
  refine ⟨rfl, he, ?_, ?_, ?_, ?_, ?_⟩
  · rw [he]
    intro hc
    exact GoErr.noConfusion hc
  · rw [he]
    simp [errorString, h]
  · simp [errorString]
  · rw [he]
    rfl
  · rw [he]
    rfl

/-- Witness for C8 at a leaf error with message oops. -/
theorem RetryableError_spec_witness :
    RetryableError GoErr.nil = GoErr.nil ∧
    RetryableError (GoErr.base "oops") = GoErr.retryable (GoErr.base "oops") ∧
    RetryableError (GoErr.base "oops") ≠ GoErr.nil ∧
    errorString (RetryableError (GoErr.base "oops")) =
      "retryable: " ++ errorString (GoErr.base "oops") ∧
    errorString (GoErr.retryable GoErr.nil) = "retryable: <nil>" ∧
    retryableUnwrap (RetryableError (GoErr.base "oops")) =
      some (GoErr.base "oops") ∧
    errorsAsRetryable (RetryableError (GoErr.base "oops")) =
      some (GoErr.base "oops") :=
  RetryableError_spec (GoErr.base "oops") (by decide)

/-- C9 counterexample: the claim says the four decorators only ever return
a non-negative duration or exactly the Stop constant, but WithCappedDuration
with the negative cap -2 on the non-stop inner delay 3 returns -2, which is
negative yet different from Stop. -/
theorem decorators_nonneg_counterexample :
    WithCappedDuration (-2) (constBackoff 3) GoErr.nil = (-2, GoErr.nil) ∧
    (WithCappedDuration (-2) (constBackoff 3) GoErr.nil).1 < 0 ∧
    (WithCappedDuration (-2) (constBackoff 3) GoErr.nil).1 ≠ Stop := by decide

/-- C9 (amended): with a positive jitter spread, a percent of at least 1,
and a non-negative cap, each of WithJitter, WithJitterPercent,
WithCappedDuration and WithMaxDuration returns a duration that is
non-negative or exactly Stop; and a stopped (negative) inner delay is
normalized by each of them to exactly Stop with the inner error passed
through. -/
theorem decorators_nonneg_amended (next : Backoff) (err : GoErr) (r : Int) :
    (∀ (j d : Int) (e : GoErr), 0 < j →
      WithJitter j next r err = some (d, e) → 0 ≤ d ∨ d = Stop) ∧
    (∀ (jp : Nat) (d : Int) (e : GoErr), 1 ≤ jp →
      WithJitterPercent jp next r err = some (d, e) → 0 ≤ d ∨ d = Stop) ∧
    (∀ cap : Int, 0 ≤ cap →
      0 ≤ (WithCappedDuration cap next err).1 ∨
        (WithCappedDuration cap next err).1 = Stop) ∧
    (∀ timeout elapsed : Int,
      0 ≤ (WithMaxDuration timeout next elapsed err).1 ∨
        (WithMaxDuration timeout next elapsed err).1 = Stop) ∧
    (IsStopped (next err).1 = true →
      (∀ j : Int, WithJitter j next r err = some (Stop, (next err).2)) ∧
      (∀ jp : Nat, WithJitterPercent jp next r err = some (Stop, (next err).2)) ∧
      (∀ cap : Int, WithCappedDuration cap next err = (Stop, (next err).2)) ∧
      (∀ timeout elapsed : Int, 0 < timeout - elapsed →
        WithMaxDuration timeout next elapsed err = (Stop, (next err).2))) := by
  refine ⟨?_, ?_, ?_, ?_, ?_⟩
  · intro j d e hj h
    by_cases hs : IsStopped (next err).1 = true
    · right
      simp [WithJitter, hs] at h
      omega
    · have hns : IsStopped (next err).1 = false := by simpa using hs
      left
      simp [WithJitter, hns, randInt63n_pos (j * 2) r (by omega),
        ite_stopped] at h
      omega
  · intro jp d e hjp h
    by_cases hs : IsStopped (next err).1 = true
    · right
      simp [WithJitterPercent, hs] at h
      omega
    · have hns : IsStopped (next err).1 = false := by simpa using hs
      have hj0 : 0 < jp := hjp
      have hjz : (0 : Int) < (jp : Int) := by exact_mod_cast hj0
      left
      simp [WithJitterPercent, hns, randInt63n_pos ((jp : Int) * 2) r (by omega),
        ite_stopped] at h
      omega
  · intro cap hcap
    by_cases hs : IsStopped (next err).1 = true
    · right
      simp [WithCappedDuration, hs]
    · have hns : IsStopped (next err).1 = false := by simpa using hs
      have h0 : 0 ≤ (next err).1 := (isStopped_false_iff _).mp hns
      left
      by_cases hc : (next err).1 ≤ 0 ∨ cap < (next err).1
      · simpa [WithCappedDuration, hns, hc] using hcap
      · simpa [WithCappedDuration, hns, hc] using h0
  · intro timeout elapsed
    by_cases hdiff : timeout - elapsed ≤ 0
    · right
      simp [WithMaxDuration, hdiff]
    · by_cases hs : IsStopped (next err).1 = true
      · right
        simp [WithMaxDuration, hdiff, hs]
      · have hns : IsStopped (next err).1 = false := by simpa using hs
        have h0 : 0 ≤ (next err).1 := (isStopped_false_iff _).mp hns
        left
        by_cases hc : (next err).1 ≤ 0 ∨ timeout - elapsed < (next err).1
        · simp [WithMaxDuration, hdiff, hs, hc]
          omega
        · simpa [WithMaxDuration, hdiff, hs, hc] using h0
  · intro hs
    refine ⟨?_, ?_, ?_, ?_⟩
    · intro j
      simp [WithJitter, hs]
    · intro jp
      simp [WithJitterPercent, hs]
    · intro cap
      simp [WithCappedDuration, hs]
    · intro timeout elapsed hdiff
      have h1 : ¬ (timeout - elapsed ≤ 0) := by omega
      simp [WithMaxDuration, h1, hs]

/-- Witness for C9 (amended): jitter on delay 5 yields 6 (non-negative),
a cap of 4 keeps the result non-negative, and a stopped inner delay of -3
(negative but different from -1) is normalized to exactly Stop. -/
theorem decorators_nonneg_amended_witness :
    ((0 : Int) ≤ 6 ∨ (6 : Int) = Stop) ∧
    ((0 : Int) ≤ (WithCappedDuration 4 (constBackoff 5) GoErr.nil).1 ∨
      (WithCappedDuration 4 (constBackoff 5) GoErr.nil).1 = Stop) ∧
    WithJitter 9 (constBackoff (-3)) 3 GoErr.nil = some (Stop, GoErr.nil) :=
  ⟨(decorators_nonneg_amended (constBackoff 5) GoErr.nil 3).1 2 6 GoErr.nil
      (by decide) (by decide),
   (decorators_nonneg_amended (constBackoff 5) GoErr.nil 3).2.2.1 4 (by decide),
   ((decorators_nonneg_amended (constBackoff (-3)) GoErr.nil 3).2.2.2.2
      (by decide)).1 9⟩

/-- C10: WithRetryable on a nil error returns the Stop signal with a nil
error for every inner backoff, with a result independent of the inner
backoff (it is never invoked); consistently, RetryableError maps nil to
nil, and the chain walk of errors.As finds no retryable mark in nil. -/
theorem WithRetryable_nil_spec (next f : Backoff) :
    WithRetryable next GoErr.nil = (Stop, GoErr.nil) ∧
    WithRetryable next GoErr.nil = WithRetryable f GoErr.nil ∧
    RetryableError GoErr.nil = GoErr.nil ∧
    errorsAsRetryable GoErr.nil = none :=
  ⟨rfl, rfl, rfl, rfl⟩

end Retry
